import Mathlib

/-!
Verification development for the TaskFlow backend task layer.

The definitions below are a shallow embedding of the repository's task
query/CRUD layer:
- `TodoModel` (`src/unnamed/part_002`): `findById`, `findByUser`, `update`,
  `delete`, `getStats` over the SQLite `todos` table, modelled as a
  `List Todo`;
- `TodoController` (`src/backend/src/controllers/TodoController.ts`, the
  copy imported by `routes/todoRoutes.ts` and therefore the one serving the
  HTTP endpoints): query-string parsing with clamping, per-field validation
  of partial updates, and the toggle handler.

SQL semantics are translated directly: a `WHERE` clause becomes a boolean
predicate used both for the page query and the `COUNT(*)`; `ORDER BY
CASE priority WHEN 'alta' THEN 1 WHEN 'media' THEN 2 WHEN 'baixa' THEN 3 END,
created_at DESC` becomes sorting by the same two keys; `LIMIT ? OFFSET ?`
becomes `drop`/`take`; `changes` of an `UPDATE`/`DELETE` is the number of rows
matched by its `WHERE` clause.  JavaScript `undefined`-vs-present distinctions
are modelled with `Option`: a field that can be *assigned* `undefined` (so the
key is present for `Object.keys` but fails `!== undefined`) has type
`Option (Option _)`, where `some none` is "key present, value undefined".
-/

namespace TaskFlow

/-- Task priority: the closed enumeration `'baixa' | 'media' | 'alta'`
(CHECK constraint in `config/database.ts`). -/
inductive Priority where
  | baixa
  | media
  | alta
deriving DecidableEq, BEq

/-- The `CASE priority WHEN 'alta' THEN 1 WHEN 'media' THEN 2 WHEN 'baixa'
THEN 3 END` sort key of `TodoModel.findByUser`. -/
def priorityRank : Priority → Nat
  | .alta => 1
  | .media => 2
  | .baixa => 3

/-- The stored string of a priority, used when the dynamic WHERE clause
compares `priority = ?` against a query-string value. -/
def priorityStr : Priority → String
  | .baixa => "baixa"
  | .media => "media"
  | .alta => "alta"

/-- A row of the `todos` table (`config/database.ts`).  `due_date` is kept as
the stored string; none of the operations embedded here parse it. -/
structure Todo where
  id : Nat
  title : String
  description : Option String
  completed : Bool
  priority : Priority
  due_date : Option String
  user_id : Nat
  created_at : Int
deriving DecidableEq

/-- Query filters accepted by `TodoModel.findByUser` (`TodoFilters` in
`types/index.ts`); every field is optional, with `page = 1` / `limit = 10`
destructuring defaults applied inside `findByUser`. -/
structure TodoFilters where
  completed : Option Bool := none
  priority : Option String := none
  search : Option String := none
  page : Option Nat := none
  limit : Option Nat := none
deriving DecidableEq

/-- Pagination metadata of a listing response. -/
structure Pagination where
  page : Nat
  limit : Nat
  total : Nat
  totalPages : Nat
  hasNext : Bool
  hasPrev : Bool
deriving DecidableEq

/-- `PaginatedResponse<TodoResponse>` from `types/index.ts`. -/
structure PaginatedTodos where
  success : Bool
  message : String
  data : List Todo
  pagination : Pagination
deriving DecidableEq

/-- Char-list version of `startsWith`, used to model SQL `LIKE`. -/
def charsStartWith : List Char → List Char → Bool
  | [], _ => true
  | _ :: _, [] => false
  | a :: as, b :: bs => a == b && charsStartWith as bs

/-- Char-list substring test, used to model SQL `LIKE '%term%'`. -/
def charsContain (needle : List Char) : List Char → Bool
  | [] => charsStartWith needle []
  | h :: t => charsStartWith needle (h :: t) || charsContain needle t

/-- Case-insensitive substring match: SQLite `LIKE '%term%'` on text. -/
def icontains (hay needle : String) : Bool :=
  charsContain (needle.data.map Char.toLower) (hay.data.map Char.toLower)

/-- Whitespace for the purposes of JavaScript `String.prototype.trim`. -/
def wsChar (c : Char) : Bool :=
  c == ' ' || c == '\t' || c == '\n' || c == '\r'

/-- JavaScript `s.trim()`: strip whitespace from both ends. -/
def trimStr (s : String) : String :=
  ⟨((s.data.dropWhile wsChar).reverse.dropWhile wsChar).reverse⟩

/-- The dynamic WHERE clause of `TodoModel.findByUser` as a predicate on a
row: `user_id = ?` always; `completed = ?` when the tri-state filter is set;
`priority = ?` when the priority string is truthy (non-empty); `(title LIKE ?
OR description LIKE ?)` when the search string is truthy.  A `NULL`
description makes its `LIKE` operand false. -/
def matchesFilter (userId : Nat) (f : TodoFilters) (t : Todo) : Bool :=
  t.user_id == userId &&
  (match f.completed with
   | some b => t.completed == b
   | none => true) &&
  (match f.priority with
   | some s => if s = "" then true else priorityStr t.priority == s
   | none => true) &&
  (match f.search with
   | some s =>
     if s = "" then true
     else
       icontains t.title s ||
       (match t.description with
        | some d => icontains d s
        | none => false)
   | none => true)

/-- The two-key row order of `TodoModel.findByUser`: priority rank ascending
(`alta` = 1 first), then `created_at` descending. -/
def todoLE (t1 t2 : Todo) : Bool :=
  priorityRank t1.priority < priorityRank t2.priority ||
  (priorityRank t1.priority == priorityRank t2.priority &&
    t2.created_at ≤ t1.created_at)

/-- Insert a row into a list sorted by `todoLE`. -/
def insertTodo (t : Todo) : List Todo → List Todo
  | [] => [t]
  | x :: xs => if todoLE t x then t :: x :: xs else x :: insertTodo t xs

/-- Sort rows by `todoLE` (the `ORDER BY` step of `findByUser`). -/
def sortTodos : List Todo → List Todo
  | [] => []
  | x :: xs => insertTodo x (sortTodos xs)

/-- The `id = ? AND user_id = ?` WHERE clause shared by `findById`, `update`
and `delete` — the ownership-guard predicate. -/
def rowMatch (id userId : Nat) (t : Todo) : Bool :=
  t.id == id && t.user_id == userId

/-- `TodoModel.findById`: `SELECT ... WHERE id = ? AND user_id = ?`. -/
def findById (id userId : Nat) (db : List Todo) : Option Todo :=
  db.find? (rowMatch id userId)

/-- `TodoModel.findByUser`: filtered, ordered, paginated listing plus the
`COUNT(*)` of the same WHERE clause.  `totalPages = Math.ceil(total/limit)`,
`hasNext = page < totalPages`, `hasPrev = page > 1`. -/
def findByUser (userId : Nat) (f : TodoFilters) (db : List Todo) :
    PaginatedTodos :=
  let page := f.page.getD 1
  let limit := f.limit.getD 10
  let offset := (page - 1) * limit
  let matching := db.filter (matchesFilter userId f)
  let todos := ((sortTodos matching).drop offset).take limit
  let total := matching.length
  let totalPages := (total + limit - 1) / limit
  { success := true
    message := "Tarefas recuperadas com sucesso"
    data := todos
    pagination :=
      { page := page
        limit := limit
        total := total
        totalPages := totalPages
        hasNext := decide (page < totalPages)
        hasPrev := decide (1 < page) } }

/-- `UpdateTodoData` as built by the controllers.  `description` and
`due_date` can be assigned `undefined` while the key stays present (the
`description?.trim() || undefined` and `updateData.due_date = undefined`
branches), hence the nested `Option`. -/
structure UpdateTodoData where
  title : Option String := none
  description : Option (Option String) := none
  completed : Option Bool := none
  priority : Option Priority := none
  due_date : Option (Option String) := none
deriving DecidableEq

/-- The value pushed for `description` by `TodoModel.update`: only a defined
value passes `updateData.description !== undefined`. -/
def descVal (u : UpdateTodoData) : Option String :=
  match u.description with
  | some (some d) => some d
  | _ => none

/-- Whether `TodoModel.update` pushes at least one `SET` field.  The model
only ever inspects `title`, `description`, `completed` and `priority`; there
is no `due_date` branch in `TodoModel.update`. -/
def hasField (u : UpdateTodoData) : Bool :=
  u.title.isSome || (descVal u).isSome || u.completed.isSome ||
    u.priority.isSome

/-- Number of keys of the controller's `updateData` object
(`Object.keys(updateData).length`); a key assigned `undefined` still counts. -/
def countKeys (u : UpdateTodoData) : Nat :=
  (if u.title.isSome then 1 else 0) +
  (if u.description.isSome then 1 else 0) +
  (if u.completed.isSome then 1 else 0) +
  (if u.priority.isSome then 1 else 0) +
  (if u.due_date.isSome then 1 else 0)

/-- Effect of the generated `UPDATE ... SET` on one matching row.  Only the
four fields `TodoModel.update` knows about are ever written. -/
def applyUpdate (u : UpdateTodoData) (t : Todo) : Todo :=
  { t with
    title := u.title.getD t.title
    description :=
      match descVal u with
      | some d => some d
      | none => t.description
    completed := u.completed.getD t.completed
    priority := u.priority.getD t.priority }

/-- Effect of the generated `UPDATE` statement on an arbitrary row: only the
rows matched by the WHERE clause are written. -/
def updRow (id userId : Nat) (u : UpdateTodoData) (t : Todo) : Todo :=
  if rowMatch id userId t then applyUpdate u t else t

/-- `TodoModel.update`: builds the `SET` list from the supplied fields,
throws `'Nenhum campo válido para atualizar'` when it is empty, otherwise
runs `UPDATE todos SET ... WHERE id = ? AND user_id = ?` and reports
`changes > 0`. -/
def modelUpdate (id userId : Nat) (u : UpdateTodoData) (db : List Todo) :
    Except String (Bool × List Todo) :=
  if hasField u then
    let changes := db.countP (rowMatch id userId)
    .ok (decide (0 < changes), db.map (updRow id userId u))
  else
    .error "Nenhum campo valido para atualizar"

/-- `TodoModel.delete`: `DELETE FROM todos WHERE id = ? AND user_id = ?`,
reporting `changes > 0`. -/
def modelDelete (id userId : Nat) (db : List Todo) : Bool × List Todo :=
  let changes := db.countP (rowMatch id userId)
  (decide (0 < changes), db.filter (fun t => !(rowMatch id userId t)))

/-- Per-priority counters of `TodoModel.getStats`, initialized to zero and
then overwritten from the `GROUP BY priority` rows; a priority with no rows
keeps its zero, so each counter equals the count of rows of that priority. -/
structure PriorityCounts where
  baixa : Nat
  media : Nat
  alta : Nat
deriving DecidableEq

/-- `TodoStats` from `types/index.ts`. -/
structure TodoStats where
  total : Nat
  completed : Nat
  pending : Nat
  byPriority : PriorityCounts
deriving DecidableEq

/-- `TodoModel.getStats`: `COUNT(*)`, `SUM(CASE WHEN completed ...)`,
`pending` computed as the difference of the two, and the `GROUP BY priority`
breakdown.  The SQL `SUM` over zero rows is `NULL`, coerced to 0 by `|| 0`. -/
def getStats (userId : Nat) (db : List Todo) : TodoStats :=
  let mine := db.filter (fun t => t.user_id == userId)
  let total := mine.length
  let comp := mine.countP (fun t => t.completed)
  { total := total
    completed := comp
    pending := total - comp
    byPriority :=
      { baixa := mine.countP (fun t => t.priority == Priority.baixa)
        media := mine.countP (fun t => t.priority == Priority.media)
        alta := mine.countP (fun t => t.priority == Priority.alta) } }

/-- The valid priority strings checked by
`['baixa', 'media', 'alta'].includes(...)`. -/
def validPriorities : List String := ["baixa", "media", "alta"]

/-- Parse a valid priority string to the enumeration. -/
def toPriority (s : String) : Priority :=
  if s = "baixa" then .baixa else if s = "alta" then .alta else .media

/-- Raw query string of `GET /api/todos` after the controller's primitive
conversions: `page`/`limit` hold the `parseInt` result (`none` for an absent
parameter or a `NaN` result), the other three hold the raw strings. -/
structure ListingQuery where
  completed : Option String := none
  priority : Option String := none
  search : Option String := none
  page : Option Int := none
  limit : Option Int := none
deriving DecidableEq

/-- The `x || d` fallback JavaScript applies to a number: `0` (and, upstream,
`NaN`, modelled by `none` in `ListingQuery`) falls back to the default. -/
def zeroTo (d n : Int) : Int :=
  if n = 0 then d else n

/-- `parseInt(req.query.page) || 1`. -/
def pageRaw (q : Option Int) : Int :=
  match q with
  | none => 1
  | some n => zeroTo 1 n

/-- `parseInt(req.query.limit) || 10`. -/
def limitRaw (q : Option Int) : Int :=
  match q with
  | none => 10
  | some n => zeroTo 10 n

/-- `if (filters.page && filters.page < 1) filters.page = 1`. -/
def clampPage (n : Int) : Int :=
  if n < 1 then 1 else n

/-- `if (filters.limit && (filters.limit < 1 || filters.limit > 100))
filters.limit = 10`. -/
def clampLimit (n : Int) : Int :=
  if n < 1 ∨ 100 < n then 10 else n

/-- Final `page` of the controller: fallback, clamp, and the redundant
`if (!filters.page) filters.page = 1` re-default. -/
def pageFinal (q : Option Int) : Nat :=
  (zeroTo 1 (clampPage (pageRaw q))).toNat

/-- Final `limit` of the controller: fallback, clamp, and the redundant
`if (!filters.limit) filters.limit = 10` re-default. -/
def limitFinal (q : Option Int) : Nat :=
  (zeroTo 10 (clampLimit (limitRaw q))).toNat

/-- Tri-state `completed` conversion: `'true' -> true`, `'false' -> false`,
anything else (or absent) `-> undefined`. -/
def parseCompleted (c : Option String) : Option Bool :=
  match c with
  | some s => if s = "true" then some true
              else if s = "false" then some false else none
  | none => none

/-- The `filters.priority && !['baixa','media','alta'].includes(...)` test of
`getAll`: only a truthy (non-empty) priority outside the enumeration is
rejected. -/
def priorityBad (p : Option String) : Bool :=
  match p with
  | some s => !(s == "") && !(validPriorities.contains s)
  | none => false

/-- Filter extraction of the routed `TodoController.getAll`
(`src/backend/src/controllers/TodoController.ts`, lines 146-168, the copy
imported by `todoRoutes.ts`): tri-state `completed`; `parseInt(x) ||
default` for `page`/`limit` (`0` and `NaN` fall back to the default);
`page < 1` clamped to 1; `limit` outside `[1, 100]` clamped to 10; a truthy
priority outside the enumeration rejected with 400.  The search term is
passed through raw — this handler performs no trimming and no minimum-length
check on it. -/
def parseListingFilters (q : ListingQuery) : Except String TodoFilters :=
  if priorityBad q.priority then
    .error "Prioridade deve ser: baixa, media ou alta"
  else
    .ok { completed := parseCompleted q.completed
          priority := q.priority
          search := q.search
          page := some (pageFinal q.page)
          limit := some (limitFinal q.limit) }

/-- HTTP outcome of the listing endpoint. -/
inductive ListingOutcome where
  | badRequest (msg : String)
  | ok (r : PaginatedTodos)
deriving DecidableEq

/-- `GET /api/todos` for an authenticated user: parse/validate the query
(400 on an invalid priority), then run `TodoModel.findByUser` (200). -/
def getAllTodos (userId : Nat) (q : ListingQuery) (db : List Todo) :
    ListingOutcome :=
  match parseListingFilters q with
  | .error m => .badRequest m
  | .ok f => .ok (findByUser userId f db)

/-- Split a char list at `'-'` separators. -/
def splitDash : List Char → List (List Char)
  | [] => [[]]
  | c :: cs =>
    if c = '-' then [] :: splitDash cs
    else
      match splitDash cs with
      | h :: t => (c :: h) :: t
      | [] => [[c]]

/-- Decimal digit test on a char. -/
def digitChar (c : Char) : Bool :=
  48 ≤ c.toNat && c.toNat ≤ 57

/-- Value of a digit string. -/
def digitsToNat (l : List Char) : Nat :=
  l.foldl (fun n c => n * 10 + (c.toNat - 48)) 0

/-- Validity of a due-date string under `!isNaN(new Date(s).getTime())`,
modelled for the ISO `YYYY-MM-DD` shape the application exchanges: four
digit year, two digit month in 1..12, two digit day in 1..31. -/
def jsDateValid (s : String) : Bool :=
  match splitDash s.data with
  | [y, m, d] =>
    y.length == 4 && m.length == 2 && d.length == 2 &&
    y.all digitChar && m.all digitChar && d.all digitChar &&
    1 ≤ digitsToNat m && digitsToNat m ≤ 12 &&
    1 ≤ digitsToNat d && digitsToNat d ≤ 31
  | _ => false

/-- Request body of `PUT /api/todos/:id`; every field optional. -/
structure UpdateBody where
  title : Option String := none
  description : Option String := none
  completed : Option Bool := none
  priority : Option String := none
  due_date : Option String := none
deriving DecidableEq

/-- HTTP outcome of the update endpoint. -/
inductive UpdateOutcome where
  | badRequest (msg : String)
  | notFound
  | serverError
  | ok (t : Todo)
deriving DecidableEq

/-- Field validation of `TodoController.update`: builds `updateData` from the
supplied body fields, or reports the 400 message.  Mirrors the source order:
title (non-empty after trim, ≤ 200), description (≤ 1000, emptied to an
`undefined`-valued key by `description?.trim() || undefined`), completed,
priority (must be in the enumeration), due_date (a non-blank string must
parse as a date and is kept; a blank one puts an `undefined`-valued
`due_date` key, the "clear" signal). -/
def buildUpdateData (b : UpdateBody) : Except String UpdateTodoData :=
  let u0 : UpdateTodoData := {}
  match b.title with
  | some s =>
    if (trimStr s).length == 0 then .error "Titulo nao pode estar vazio"
    else if 200 < s.length then
      .error "Titulo nao pode ter mais de 200 caracteres"
    else bUDesc b { u0 with title := some (trimStr s) }
  | none => bUDesc b u0
where
  bUDesc (b : UpdateBody) (u : UpdateTodoData) :
      Except String UpdateTodoData :=
    match b.description with
    | some s =>
      if s ≠ "" && 1000 < s.length then
        .error "Descricao nao pode ter mais de 1000 caracteres"
      else
        bUCompleted b
          { u with
            description :=
              some (if trimStr s = "" then none else some (trimStr s)) }
    | none => bUCompleted b u
  bUCompleted (b : UpdateBody) (u : UpdateTodoData) :
      Except String UpdateTodoData :=
    match b.completed with
    | some c => bUPriority b { u with completed := some c }
    | none => bUPriority b u
  bUPriority (b : UpdateBody) (u : UpdateTodoData) :
      Except String UpdateTodoData :=
    match b.priority with
    | some s =>
      if validPriorities.contains s then
        bUDue b { u with priority := some (toPriority s) }
      else .error "Prioridade deve ser: baixa, media ou alta"
    | none => bUDue b u
  bUDue (b : UpdateBody) (u : UpdateTodoData) :
      Except String UpdateTodoData :=
    match b.due_date with
    | some s =>
      if s ≠ "" && trimStr s ≠ "" then
        if jsDateValid s then .ok { u with due_date := some (some s) }
        else .error "Data de vencimento invalida"
      else .ok { u with due_date := some none }
    | none => .ok u

/-- `TodoController.update` for an authenticated user: validate the body
fields, 400 when no key was collected, then `TodoModel.update` — a thrown
model error is caught as 500, `changes = 0` is 404, and on success the row is
re-read and returned. -/
def controllerUpdate (todoId userId : Nat) (b : UpdateBody)
    (db : List Todo) : UpdateOutcome × List Todo :=
  match buildUpdateData b with
  | .error m => (.badRequest m, db)
  | .ok u =>
    if countKeys u == 0 then
      (.badRequest "Nenhum campo valido para atualizar", db)
    else
      match modelUpdate todoId userId u db with
      | .error _ => (.serverError, db)
      | .ok (false, db') => (.notFound, db')
      | .ok (true, db') =>
        match findById todoId userId db' with
        | some t => (.ok t, db')
        | none => (.serverError, db')

/-- HTTP outcome of the single-row read endpoint. -/
inductive GetOutcome where
  | notFound
  | ok (t : Todo)
deriving DecidableEq

/-- `TodoController.getById`: `TodoModel.findById`, 404 when `undefined`. -/
def controllerGetById (todoId userId : Nat) (db : List Todo) : GetOutcome :=
  match findById todoId userId db with
  | none => .notFound
  | some t => .ok t

/-- HTTP outcome of the delete endpoint. -/
inductive DeleteOutcome where
  | notFound
  | ok
deriving DecidableEq

/-- `TodoController.delete`: `TodoModel.delete`, 404 when no row changed. -/
def controllerDelete (todoId userId : Nat) (db : List Todo) :
    DeleteOutcome × List Todo :=
  match modelDelete todoId userId db with
  | (false, db') => (.notFound, db')
  | (true, db') => (.ok, db')

/-- HTTP outcome of the toggle endpoint. -/
inductive ToggleOutcome where
  | notFound
  | serverError
  | ok (t : Todo)
deriving DecidableEq

/-- `TodoController.toggleCompleted` (the routed `PATCH /api/todos/:id/toggle`
handler): read the row, 404 when absent; otherwise negate its `completed`
flag and write it back through `TodoModel.update { completed: newStatus }`,
then re-read and return the row.  No due-date rule is consulted anywhere on
this path. -/
def controllerToggle (todoId userId : Nat) (db : List Todo) :
    ToggleOutcome × List Todo :=
  match findById todoId userId db with
  | none => (.notFound, db)
  | some cur =>
    match modelUpdate todoId userId { completed := some (!cur.completed) }
        db with
    | .error _ => (.serverError, db)
    | .ok (false, db') => (.serverError, db')
    | .ok (true, db') =>
      match findById todoId userId db' with
      | none => (.serverError, db')
      | some t => (.ok t, db')

/-! Lemmas about the listing order. -/

/-- The listing order as a proposition: strictly higher priority first, and
within one priority tier newer creation first. -/
def todoOrder (t1 t2 : Todo) : Prop :=
  priorityRank t1.priority < priorityRank t2.priority ∨
    (priorityRank t1.priority = priorityRank t2.priority ∧
      t2.created_at ≤ t1.created_at)

lemma todoLE_iff {t1 t2 : Todo} : todoLE t1 t2 = true ↔ todoOrder t1 t2 := by
  simp [todoLE, todoOrder]

lemma todoOrder_trans {a b c : Todo} (h1 : todoOrder a b)
    (h2 : todoOrder b c) : todoOrder a c := by
  unfold todoOrder at h1 h2 ⊢
  omega

lemma todoOrder_total (a b : Todo) : todoOrder a b ∨ todoOrder b a := by
  unfold todoOrder
  omega

lemma mem_insertTodo {x t : Todo} {l : List Todo} :
    x ∈ insertTodo t l ↔ x = t ∨ x ∈ l := by
  induction l with
  | nil => simp [insertTodo]
  | cons y ys ih =>
    unfold insertTodo
    by_cases h : todoLE t y = true
    · rw [if_pos h]
      simp
    · rw [if_neg h]
      simp only [List.mem_cons, ih]
      tauto

lemma pairwise_insertTodo {t : Todo} {l : List Todo}
    (h : l.Pairwise todoOrder) : (insertTodo t l).Pairwise todoOrder := by
  induction l with
  | nil => simp [insertTodo]
  | cons y ys ih =>
    rcases List.pairwise_cons.mp h with ⟨hy, hys⟩
    unfold insertTodo
    by_cases hc : todoLE t y = true
    · rw [if_pos hc]
      have hty : todoOrder t y := todoLE_iff.mp hc
      refine List.pairwise_cons.mpr ⟨?_, h⟩
      intro z hz
      rcases List.mem_cons.mp hz with rfl | hz'
      · exact hty
      · exact todoOrder_trans hty (hy z hz')
    · have hyt : todoOrder y t := by
        rcases todoOrder_total t y with h1 | h1
        · exact absurd (todoLE_iff.mpr h1) hc
        · exact h1
      rw [if_neg hc]
      refine List.pairwise_cons.mpr ⟨?_, ih hys⟩
      intro z hz
      rcases mem_insertTodo.mp hz with rfl | hz'
      · exact hyt
      · exact hy z hz'

lemma sortTodos_pairwise : ∀ l : List Todo,
    (sortTodos l).Pairwise todoOrder
  | [] => by simp [sortTodos]
  | x :: xs => pairwise_insertTodo (sortTodos_pairwise xs)

lemma mem_sortTodos {x : Todo} : ∀ {l : List Todo},
    x ∈ sortTodos l ↔ x ∈ l := by
  intro l
  induction l with
  | nil => simp [sortTodos]
  | cons y ys ih => simp [sortTodos, mem_insertTodo, ih]

/-! Lemmas about the listing operation. -/

lemma findByUser_data (userId : Nat) (f : TodoFilters) (db : List Todo) :
    (findByUser userId f db).data =
      ((sortTodos (db.filter (matchesFilter userId f))).drop
        ((f.page.getD 1 - 1) * f.limit.getD 10)).take (f.limit.getD 10) :=
  rfl

lemma findByUser_data_sublist (userId : Nat) (f : TodoFilters)
    (db : List Todo) :
    (findByUser userId f db).data.Sublist
      (sortTodos (db.filter (matchesFilter userId f))) := by
  rw [findByUser_data]
  exact (List.take_sublist _ _).trans (List.drop_sublist _ _)

lemma mem_findByUser_data {userId : Nat} {f : TodoFilters} {db : List Todo}
    {t : Todo} (h : t ∈ (findByUser userId f db).data) :
    matchesFilter userId f t = true := by
  have h1 : t ∈ sortTodos (db.filter (matchesFilter userId f)) :=
    (findByUser_data_sublist userId f db).subset h
  exact (List.mem_filter.mp (mem_sortTodos.mp h1)).2

lemma matchesFilter_user {userId : Nat} {f : TodoFilters} {t : Todo}
    (h : matchesFilter userId f t = true) : t.user_id = userId := by
  unfold matchesFilter at h
  simp only [Bool.and_eq_true, beq_iff_eq] at h
  exact h.1.1.1

/-! Lemmas about the row-match predicate and the update map. -/

lemma applyUpdate_id (u : UpdateTodoData) (t : Todo) :
    (applyUpdate u t).id = t.id := rfl

lemma applyUpdate_user_id (u : UpdateTodoData) (t : Todo) :
    (applyUpdate u t).user_id = t.user_id := rfl

lemma applyUpdate_due_date (u : UpdateTodoData) (t : Todo) :
    (applyUpdate u t).due_date = t.due_date := rfl

lemma applyUpdate_created_at (u : UpdateTodoData) (t : Todo) :
    (applyUpdate u t).created_at = t.created_at := rfl

lemma rowMatch_updRow (id userId : Nat) (u : UpdateTodoData) (t : Todo) :
    rowMatch id userId (updRow id userId u t) = rowMatch id userId t := by
  unfold updRow
  by_cases h : rowMatch id userId t = true
  · rw [if_pos h]
    exact h.symm ▸ rfl
  · rw [if_neg h]

lemma find?_map_pres {p : Todo → Bool} {g : Todo → Todo}
    (hp : ∀ x, p (g x) = p x) :
    ∀ l : List Todo, (l.map g).find? p = (l.find? p).map g := by
  intro l
  induction l with
  | nil => rfl
  | cons x xs ih =>
    by_cases hx : p x = true
    · rw [List.map_cons, List.find?_cons_of_pos _ ((hp x).trans hx),
        List.find?_cons_of_pos _ hx]
      rfl
    · have hx' : ¬ p x = true := hx
      rw [List.map_cons,
        List.find?_cons_of_neg _ (by rw [hp x]; exact hx'),
        List.find?_cons_of_neg _ hx', ih]

lemma findById_map_updRow (id userId : Nat) (u : UpdateTodoData)
    (db : List Todo) :
    findById id userId (db.map (updRow id userId u)) =
      (findById id userId db).map (updRow id userId u) :=
  find?_map_pres (rowMatch_updRow id userId u) db

lemma modelUpdate_of_hasField (id userId : Nat) (u : UpdateTodoData)
    (db : List Todo) (h : hasField u = true) :
    modelUpdate id userId u db =
      .ok (decide (0 < db.countP (rowMatch id userId)),
        db.map (updRow id userId u)) := by
  simp [modelUpdate, h]

lemma modelUpdate_of_not_hasField {id userId : Nat} {u : UpdateTodoData}
    (db : List Todo) (h : hasField u = false) :
    modelUpdate id userId u db = .error "Nenhum campo valido para atualizar" := by
  simp [modelUpdate, h]

/-! Lemmas about operations that hit no row (absent id, or a row owned by a
different identity — the WHERE clause cannot tell the two apart). -/

lemma countP_eq_zero_of_noMatch {id userId : Nat} {db : List Todo}
    (h : ∀ t ∈ db, rowMatch id userId t = false) :
    db.countP (rowMatch id userId) = 0 :=
  List.countP_eq_zero.mpr (fun a ha => by simp [h a ha])

lemma map_updRow_of_noMatch {id userId : Nat} {u : UpdateTodoData}
    {db : List Todo} (h : ∀ t ∈ db, rowMatch id userId t = false) :
    db.map (updRow id userId u) = db := by
  have hid : ∀ t ∈ db, updRow id userId u t = t := by
    intro t ht
    simp [updRow, h t ht]
  have := List.map_congr_left hid
  simpa using this

lemma findById_eq_none_of_noMatch {id userId : Nat} {db : List Todo}
    (h : ∀ t ∈ db, rowMatch id userId t = false) :
    findById id userId db = none :=
  List.find?_eq_none.mpr (fun x hx => by simp [h x hx])

lemma modelDelete_of_noMatch {id userId : Nat} {db : List Todo}
    (h : ∀ t ∈ db, rowMatch id userId t = false) :
    modelDelete id userId db = (false, db) := by
  have h1 : db.filter (fun t => !(rowMatch id userId t)) = db :=
    List.filter_eq_self.mpr (fun a ha => by simp [h a ha])
  simp only [modelDelete, countP_eq_zero_of_noMatch h, h1]
  rfl

lemma modelUpdate_of_noMatch {id userId : Nat} {u : UpdateTodoData}
    {db : List Todo} (hf : hasField u = true)
    (h : ∀ t ∈ db, rowMatch id userId t = false) :
    modelUpdate id userId u db = .ok (false, db) := by
  rw [modelUpdate_of_hasField id userId u db hf, countP_eq_zero_of_noMatch h,
    map_updRow_of_noMatch h]
  rfl

lemma controllerUpdate_of_noMatch {id userId : Nat} {bod : UpdateBody}
    {db : List Todo} (h : ∀ t ∈ db, rowMatch id userId t = false) :
    controllerUpdate id userId bod db =
      (match buildUpdateData bod with
       | .error m => (.badRequest m, db)
       | .ok u =>
         if countKeys u == 0 then
           (.badRequest "Nenhum campo valido para atualizar", db)
         else if hasField u then (.notFound, db)
         else (.serverError, db)) := by
  unfold controllerUpdate
  cases hb : buildUpdateData bod with
  | error m => rfl
  | ok u =>
    dsimp only
    by_cases hk : (countKeys u == 0) = true
    · rw [if_pos hk, if_pos hk]
    · rw [if_neg hk, if_neg hk]
      by_cases hf : hasField u = true
      · rw [modelUpdate_of_noMatch hf h, if_pos hf]
      · rw [modelUpdate_of_not_hasField db
          (by cases hfv : hasField u with
              | true => exact absurd hfv hf
              | false => rfl),
          if_neg hf]

lemma controllerUpdate_noMatch_snd {id userId : Nat} {bod : UpdateBody}
    {db : List Todo} (h : ∀ t ∈ db, rowMatch id userId t = false) :
    (controllerUpdate id userId bod db).2 = db := by
  rw [controllerUpdate_of_noMatch h]
  cases buildUpdateData bod with
  | error m => rfl
  | ok u =>
    dsimp only
    by_cases hk : (countKeys u == 0) = true
    · rw [if_pos hk]
    · rw [if_neg hk]
      by_cases hf : hasField u = true
      · rw [if_pos hf]
      · rw [if_neg hf]

lemma controllerUpdate_noMatch_fst {id userId : Nat} {bod : UpdateBody}
    {db : List Todo} (h : ∀ t ∈ db, rowMatch id userId t = false)
    (t' : Todo) : (controllerUpdate id userId bod db).1 ≠ .ok t' := by
  rw [controllerUpdate_of_noMatch h]
  cases buildUpdateData bod with
  | error m => simp
  | ok u =>
    dsimp only
    by_cases hk : (countKeys u == 0) = true
    · rw [if_pos hk]
      simp
    · rw [if_neg hk]
      by_cases hf : hasField u = true
      · rw [if_pos hf]
        simp
      · rw [if_neg hf]
        simp

/-- With distinct primary keys, a row owned by `a` matches no WHERE clause
scoped to a different identity `b`. -/
lemma noMatch_of_otherOwner {db : List Todo} {t : Todo} {a b : Nat}
    (hid : (db.map Todo.id).Nodup) (ht : t ∈ db) (howner : t.user_id = a)
    (hab : b ≠ a) : ∀ t' ∈ db, rowMatch t.id b t' = false := by
  intro t' ht'
  cases hmm : rowMatch t.id b t' with
  | false => rfl
  | true =>
    exfalso
    unfold rowMatch at hmm
    simp only [Bool.and_eq_true, beq_iff_eq] at hmm
    obtain ⟨hid', huser⟩ := hmm
    have he : t' = t := List.inj_on_of_nodup_map hid ht' ht hid'
    rw [he, howner] at huser
    exact hab huser.symm

/-! Lemmas about the toggle handler. -/

lemma toggle_step {id userId : Nat} {db : List Todo} {t : Todo}
    (h : findById id userId db = some t) :
    controllerToggle id userId db =
      (.ok { t with completed := !t.completed },
        db.map (updRow id userId { completed := some (!t.completed) })) ∧
    findById id userId
        (db.map (updRow id userId { completed := some (!t.completed) })) =
      some { t with completed := !t.completed } := by
  have hmem : t ∈ db := List.mem_of_find?_eq_some h
  have hpt : rowMatch id userId t = true := List.find?_some h
  have hcnt : 0 < db.countP (rowMatch id userId) :=
    List.countP_pos_iff.mpr ⟨t, hmem, hpt⟩
  have hfind' : findById id userId
      (db.map (updRow id userId { completed := some (!t.completed) })) =
      some { t with completed := !t.completed } := by
    rw [findById_map_updRow, h]
    show some (updRow id userId _ t) = _
    unfold updRow
    rw [if_pos hpt]
    rfl
  refine ⟨?_, hfind'⟩
  have hdec : decide (0 < db.countP (rowMatch id userId)) = true :=
    decide_eq_true hcnt
  unfold controllerToggle
  rw [h]
  dsimp only
  rw [modelUpdate_of_hasField id userId
    { completed := some (!t.completed) } db rfl, hdec]
  dsimp only
  rw [hfind']

/-- Ceiling-division bounds: `(T + L - 1) / L` (the `Math.ceil(total/limit)`
computed by `findByUser`) is the least multiple bound, pinning it to
`⌈T / L⌉`. -/
lemma ceil_bounds (T L : Nat) (hL : 0 < L) :
    T ≤ ((T + L - 1) / L) * L ∧ ((T + L - 1) / L) * L < T + L := by
  have hdm := Nat.div_add_mod (T + L - 1) L
  have hmod : (T + L - 1) % L < L := Nat.mod_lt _ hL
  rw [Nat.mul_comm ((T + L - 1) / L) L]
  generalize (T + L - 1) % L = r at hdm hmod
  generalize L * ((T + L - 1) / L) = z at hdm ⊢
  omega

/-- C1: Ownership isolation.  For every task `t` owned by identity `a` and
every identity `b ≠ a` (primary keys being distinct, as the store
guarantees): the single read scoped to `b` answers NotFound; the delete
scoped to `b` removes nothing and reports NotFound; any update scoped to `b`
with at least one field changes zero rows (which the handler maps to 404),
leaves the store untouched, and can never return the task's data; every
listing scoped to `b` contains only tasks owned by `b`; and the observable
outcome of get/delete/update at `t.id` is identical to the outcome at an id
that exists in no row at all. -/
theorem C1_ownership_isolation {db : List Todo} {t : Todo} {a b : Nat}
    (hid : (db.map Todo.id).Nodup) (ht : t ∈ db) (howner : t.user_id = a)
    (hab : b ≠ a) :
    controllerGetById t.id b db = .notFound ∧
    modelDelete t.id b db = (false, db) ∧
    controllerDelete t.id b db = (.notFound, db) ∧
    (∀ u : UpdateTodoData, hasField u = true →
      modelUpdate t.id b u db = .ok (false, db)) ∧
    (∀ bod : UpdateBody, (controllerUpdate t.id b bod db).2 = db ∧
      ∀ t', (controllerUpdate t.id b bod db).1 ≠ .ok t') ∧
    (∀ f t', t' ∈ (findByUser b f db).data → t'.user_id = b) ∧
    (∀ id0, (∀ t' ∈ db, t'.id ≠ id0) →
      controllerGetById t.id b db = controllerGetById id0 b db ∧
      modelDelete t.id b db = modelDelete id0 b db ∧
      ∀ bod, controllerUpdate t.id b bod db =
        controllerUpdate id0 b bod db) := by
  have hno : ∀ t' ∈ db, rowMatch t.id b t' = false :=
    noMatch_of_otherOwner hid ht howner hab
  refine ⟨?_, ?_, ?_, ?_, ?_, ?_, ?_⟩
  · unfold controllerGetById
    rw [findById_eq_none_of_noMatch hno]
  · exact modelDelete_of_noMatch hno
  · unfold controllerDelete
    rw [modelDelete_of_noMatch hno]
  · intro u hf
    exact modelUpdate_of_noMatch hf hno
  · intro bod
    exact ⟨controllerUpdate_noMatch_snd hno,
      fun t' => controllerUpdate_noMatch_fst hno t'⟩
  · intro f t' ht'
    exact matchesFilter_user (mem_findByUser_data ht')
  · intro id0 h0
    have hno0 : ∀ t' ∈ db, rowMatch id0 b t' = false := by
      intro t' ht'
      unfold rowMatch
      have hne : (t'.id == id0) = false := by
        simp [h0 t' ht']
      rw [hne, Bool.false_and]
    refine ⟨?_, ?_, ?_⟩
    · unfold controllerGetById
      rw [findById_eq_none_of_noMatch hno, findById_eq_none_of_noMatch hno0]
    · rw [modelDelete_of_noMatch hno, modelDelete_of_noMatch hno0]
    · intro bod
      rw [controllerUpdate_of_noMatch hno, controllerUpdate_of_noMatch hno0]

/-- Concrete task used by witnesses and counterexamples. -/
def taskA : Todo :=
  { id := 1, title := "A", description := none, completed := false,
    priority := .alta, due_date := none, user_id := 1, created_at := 0 }

/-- Witness for C1 at a one-row store: task 1 is owned by identity 1 and
identity 2 observes NotFound everywhere. -/
theorem C1_ownership_isolation_witness :
    ([taskA].map Todo.id).Nodup ∧ taskA ∈ [taskA] ∧ taskA.user_id = 1 ∧
    (2 : Nat) ≠ 1 ∧
    controllerGetById taskA.id 2 [taskA] = .notFound ∧
    modelDelete taskA.id 2 [taskA] = (false, [taskA]) ∧
    (∀ bod, (controllerUpdate taskA.id 2 bod [taskA]).2 = [taskA] ∧
      ∀ t', (controllerUpdate taskA.id 2 bod [taskA]).1 ≠ .ok t') ∧
    (∀ f t', t' ∈ (findByUser 2 f [taskA]).data → t'.user_id = 2) := by
  have h := C1_ownership_isolation
    (show ([taskA].map Todo.id).Nodup by decide)
    (show taskA ∈ [taskA] by decide)
    (show taskA.user_id = 1 from rfl)
    (show (2 : Nat) ≠ 1 by decide)
  exact ⟨by decide, by decide, rfl, by decide, h.1, h.2.1, h.2.2.2.2.1,
    h.2.2.2.2.2.1⟩

/-- C2: Pagination consistency.  For every owner, filter combination and
store: `total` is the number of rows matching the very filter predicate used
for the page; `totalPages` is `⌈total / limit⌉` (stated by its bounding
inequalities); `hasNext` holds exactly when `page < totalPages` and `hasPrev`
exactly when `page > 1`; every row of the returned page satisfies the same
predicate; and an empty match set is not an error — it yields a valid empty
page with `total = 0`. -/
theorem C2_pagination_consistency (userId : Nat) (f : TodoFilters)
    (db : List Todo) (hl : 0 < f.limit.getD 10) :
    (findByUser userId f db).pagination.total =
      (db.filter (matchesFilter userId f)).length ∧
    (db.filter (matchesFilter userId f)).length ≤
      (findByUser userId f db).pagination.totalPages * f.limit.getD 10 ∧
    (findByUser userId f db).pagination.totalPages * f.limit.getD 10 <
      (db.filter (matchesFilter userId f)).length + f.limit.getD 10 ∧
    ((findByUser userId f db).pagination.hasNext = true ↔
      (findByUser userId f db).pagination.page <
        (findByUser userId f db).pagination.totalPages) ∧
    ((findByUser userId f db).pagination.hasPrev = true ↔
      1 < (findByUser userId f db).pagination.page) ∧
    (∀ t ∈ (findByUser userId f db).data,
      matchesFilter userId f t = true) ∧
    (db.filter (matchesFilter userId f) = [] →
      (findByUser userId f db).data = [] ∧
      (findByUser userId f db).pagination.total = 0 ∧
      (findByUser userId f db).success = true) := by
  have hb := ceil_bounds (db.filter (matchesFilter userId f)).length
    (f.limit.getD 10) hl
  refine ⟨rfl, hb.1, hb.2, ?_, ?_, ?_, ?_⟩
  · exact ⟨of_decide_eq_true, decide_eq_true⟩
  · exact ⟨of_decide_eq_true, decide_eq_true⟩
  · intro t ht
    exact mem_findByUser_data ht
  · intro he
    refine ⟨?_, ?_, rfl⟩
    · rw [findByUser_data, he]
      simp [sortTodos]
    · show (db.filter (matchesFilter userId f)).length = 0
      rw [he]
      rfl

/-- Witness for C2 at the default filters and a one-row store. -/
theorem C2_pagination_consistency_witness :
    0 < (({} : TodoFilters).limit.getD 10) ∧
    ((findByUser 1 {} [taskA]).pagination.total =
      ([taskA].filter (matchesFilter 1 {})).length ∧
    ([taskA].filter (matchesFilter 1 {})).length ≤
      (findByUser 1 {} [taskA]).pagination.totalPages *
        ({} : TodoFilters).limit.getD 10 ∧
    (findByUser 1 {} [taskA]).pagination.totalPages *
        ({} : TodoFilters).limit.getD 10 <
      ([taskA].filter (matchesFilter 1 {})).length +
        ({} : TodoFilters).limit.getD 10 ∧
    ((findByUser 1 {} [taskA]).pagination.hasNext = true ↔
      (findByUser 1 {} [taskA]).pagination.page <
        (findByUser 1 {} [taskA]).pagination.totalPages) ∧
    ((findByUser 1 {} [taskA]).pagination.hasPrev = true ↔
      1 < (findByUser 1 {} [taskA]).pagination.page) ∧
    (∀ t ∈ (findByUser 1 {} [taskA]).data,
      matchesFilter 1 {} t = true) ∧
    ([taskA].filter (matchesFilter 1 {}) = [] →
      (findByUser 1 {} [taskA]).data = [] ∧
      (findByUser 1 {} [taskA]).pagination.total = 0 ∧
      (findByUser 1 {} [taskA]).success = true)) :=
  ⟨by decide, C2_pagination_consistency 1 {} [taskA] (by decide)⟩

/-- C3: Ordering.  Every listing page is ordered with strictly higher
priority first (`alta` has the least rank, then `media`, then `baixa`) and,
within one priority tier, newer creation time first.  The listing is a pure
function of its inputs, so the order for identical inputs is identical on
every invocation. -/
theorem C3_ordering_determinism (userId : Nat) (f : TodoFilters)
    (db : List Todo) :
    (findByUser userId f db).data.Pairwise (fun t1 t2 =>
      priorityRank t1.priority < priorityRank t2.priority ∨
        (priorityRank t1.priority = priorityRank t2.priority ∧
          t2.created_at ≤ t1.created_at)) :=
  (sortTodos_pairwise (db.filter (matchesFilter userId f))).sublist
    (findByUser_data_sublist userId f db)

/-- A task whose due date lies strictly in the past (any reading of "past"
relative to the application's lifetime) and which is not completed. -/
def overdueTask : Todo :=
  { id := 1, title := "Vencida", description := none, completed := false,
    priority := .media, due_date := some "2020-01-01", user_id := 1,
    created_at := 0 }

/-- C4: the claim says a toggle-to-completed on an overdue task fails with a
domain error and leaves the task unchanged.  The routed toggle handler never
consults the due date (it calls `TodoModel.update` directly, not
`TodoModel.toggleCompleted`): on an overdue, uncompleted task it answers 200
and persists `completed = true`. -/
theorem C4_overdue_toggle_not_blocked :
    overdueTask.completed = false ∧
    overdueTask.due_date = some "2020-01-01" ∧
    controllerToggle 1 1 [overdueTask] =
      (.ok { overdueTask with completed := true },
        [{ overdueTask with completed := true }]) :=
  ⟨rfl, rfl, rfl⟩

/-- A task carrying a stored due date, for the update evaluations. -/
def dueTask : Todo :=
  { id := 1, title := "Com prazo", description := none, completed := false,
    priority := .media, due_date := some "2030-05-05", user_id := 1,
    created_at := 0 }

/-- C5: the claim says `due_date: ""` clears the stored due date and a
non-empty `due_date` is persisted.  `TodoModel.update` has no `due_date`
branch, so a due_date-only patch collects zero SET fields, the model throws,
the handler answers 500, and the stored due date survives unchanged in both
cases. -/
theorem C5_due_date_not_writable :
    controllerUpdate 1 1 { due_date := some "" } [dueTask] =
      (.serverError, [dueTask]) ∧
    controllerUpdate 1 1 { due_date := some "2031-01-02" } [dueTask] =
      (.serverError, [dueTask]) :=
  ⟨rfl, rfl⟩

/-- C10: toggle involution.  For any task visible to the caller, the toggle
handler stores the boolean negation of the current `completed` flag and
returns the row with only that flag changed — with no condition on the due
date — and a second toggle restores the task exactly. -/
theorem C10_toggle_involution {id userId : Nat} {db : List Todo} {t : Todo}
    (h : findById id userId db = some t) :
    (controllerToggle id userId db).1 =
      .ok { t with completed := !t.completed } ∧
    findById id userId (controllerToggle id userId db).2 =
      some { t with completed := !t.completed } ∧
    (controllerToggle id userId (controllerToggle id userId db).2).1 =
      .ok t ∧
    findById id userId
      (controllerToggle id userId (controllerToggle id userId db).2).2 =
      some t := by
  obtain ⟨he1, hf1⟩ := toggle_step h
  obtain ⟨he2, hf2⟩ := toggle_step hf1
  have hrestore :
      ({ { t with completed := !t.completed } with
          completed := !(!t.completed) } : Todo) = t := by
    rw [Bool.not_not]
  refine ⟨by rw [he1], by rw [he1]; exact hf1, ?_, ?_⟩
  · rw [he1]
    show (controllerToggle id userId _).1 = _
    rw [he2]
    exact congrArg ToggleOutcome.ok hrestore
  · rw [he1]
    show findById id userId (controllerToggle id userId _).2 = _
    rw [he2]
    show findById id userId _ = _
    rw [hf2]
    exact congrArg some hrestore

/-- Witness for C10 on a one-row store: toggling task 1 twice restores it. -/
theorem C10_toggle_involution_witness :
    findById 1 1 [taskA] = some taskA ∧
    (controllerToggle 1 1 [taskA]).1 =
      .ok { taskA with completed := true } ∧
    (controllerToggle 1 1 (controllerToggle 1 1 [taskA]).2).1 =
      .ok taskA := by
  have h := C10_toggle_involution
    (show findById 1 1 [taskA] = some taskA from rfl)
  exact ⟨rfl, h.1, h.2.2.1⟩

/-- C8: Partial update frame.  Whenever `TodoModel.update` succeeds, each
stored row keeps its position, and on each row: `due_date`, `id`, `user_id`
and `created_at` are never written (there is no SET branch for them), and any
of `title`, `completed`, `priority`, `description` absent from the patch is
byte-identical to its value before the update.  In particular a
`{ completed := b }`-only patch leaves title, description, priority and
due_date unchanged. -/
theorem C8_partial_update_frame {id userId : Nat} {u : UpdateTodoData}
    {db db' : List Todo} {flag : Bool}
    (h : modelUpdate id userId u db = .ok (flag, db')) :
    ∀ (n : Nat) (t t' : Todo), db[n]? = some t → db'[n]? = some t' →
      t'.due_date = t.due_date ∧ t'.id = t.id ∧ t'.user_id = t.user_id ∧
      t'.created_at = t.created_at ∧
      (u.title = none → t'.title = t.title) ∧
      (u.completed = none → t'.completed = t.completed) ∧
      (u.priority = none → t'.priority = t.priority) ∧
      (descVal u = none → t'.description = t.description) := by
  have hf : hasField u = true := by
    cases hfv : hasField u with
    | true => rfl
    | false =>
      rw [modelUpdate_of_not_hasField db hfv] at h
      exact absurd h (by simp)
  rw [modelUpdate_of_hasField id userId u db hf] at h
  simp only [Except.ok.injEq, Prod.mk.injEq] at h
  obtain ⟨-, hdb'⟩ := h
  subst hdb'
  intro n t t' htn htn'
  rw [List.getElem?_map, htn] at htn'
  have ht' : t' = updRow id userId u t := by
    simpa using htn'.symm
  subst ht'
  unfold updRow
  by_cases hm : rowMatch id userId t = true
  · rw [if_pos hm]
    refine ⟨applyUpdate_due_date u t, applyUpdate_id u t,
      applyUpdate_user_id u t, applyUpdate_created_at u t, ?_, ?_, ?_, ?_⟩
    · intro hti
      simp [applyUpdate, hti]
    · intro hc
      simp [applyUpdate, hc]
    · intro hp
      simp [applyUpdate, hp]
    · intro hd
      simp [applyUpdate, hd]
  · rw [if_neg hm]
    exact ⟨rfl, rfl, rfl, rfl, fun _ => rfl, fun _ => rfl, fun _ => rfl,
      fun _ => rfl⟩

/-- Witness for C8: a `{ completed := true }`-only patch on a one-row store
leaves every other field of the row byte-identical. -/
theorem C8_partial_update_frame_witness :
    modelUpdate 1 1 { completed := some true } [dueTask] =
      .ok (true, [{ dueTask with completed := true }]) ∧
    ({ dueTask with completed := true }.due_date = dueTask.due_date ∧
     { dueTask with completed := true }.id = dueTask.id ∧
     { dueTask with completed := true }.user_id = dueTask.user_id ∧
     { dueTask with completed := true }.created_at = dueTask.created_at ∧
     (({ completed := some true } : UpdateTodoData).title = none →
       { dueTask with completed := true }.title = dueTask.title) ∧
     (({ completed := some true } : UpdateTodoData).completed = none →
       { dueTask with completed := true }.completed = dueTask.completed) ∧
     (({ completed := some true } : UpdateTodoData).priority = none →
       { dueTask with completed := true }.priority = dueTask.priority) ∧
     (descVal { completed := some true } = none →
       { dueTask with completed := true }.description =
         dueTask.description)) := by
  have hm : modelUpdate 1 1 { completed := some true } [dueTask] =
      .ok (true, [{ dueTask with completed := true }]) := rfl
  exact ⟨hm, C8_partial_update_frame hm 0 dueTask
    { dueTask with completed := true } rfl rfl⟩

/-- Exactly one of the three priorities holds for each row, so the per-tier
counts sum to the row count. -/
lemma countP_priority_partition : ∀ l : List Todo,
    l.countP (fun t => t.priority == Priority.baixa) +
      l.countP (fun t => t.priority == Priority.media) +
      l.countP (fun t => t.priority == Priority.alta) = l.length := by
  intro l
  induction l with
  | nil => rfl
  | cons t ts ih =>
    cases hp : t.priority with
    | baixa =>
      simp only [List.countP_cons, hp, List.length_cons]
      rw [show (if (Priority.baixa == Priority.baixa) = true
            then 1 else 0) = 1 from rfl,
          show (if (Priority.baixa == Priority.media) = true
            then 1 else 0) = 0 from rfl,
          show (if (Priority.baixa == Priority.alta) = true
            then 1 else 0) = 0 from rfl]
      omega
    | media =>
      simp only [List.countP_cons, hp, List.length_cons]
      rw [show (if (Priority.media == Priority.baixa) = true
            then 1 else 0) = 0 from rfl,
          show (if (Priority.media == Priority.media) = true
            then 1 else 0) = 1 from rfl,
          show (if (Priority.media == Priority.alta) = true
            then 1 else 0) = 0 from rfl]
      omega
    | alta =>
      simp only [List.countP_cons, hp, List.length_cons]
      rw [show (if (Priority.alta == Priority.baixa) = true
            then 1 else 0) = 0 from rfl,
          show (if (Priority.alta == Priority.media) = true
            then 1 else 0) = 0 from rfl,
          show (if (Priority.alta == Priority.alta) = true
            then 1 else 0) = 1 from rfl]
      omega

/-- C9: Statistics.  For every owner and store: `total` counts the owner's
rows, `completed` counts the completed ones, `pending` is computed as
`total - completed` (so the three are consistent: `completed + pending =
total`), the three per-priority counters are the per-tier counts (zero when
the tier is empty) and sum to `total`; for an owner with no rows the result
is exactly `{total: 0, completed: 0, pending: 0, byPriority: {baixa: 0,
media: 0, alta: 0}}`. -/
theorem C9_stats_shape (userId : Nat) (db : List Todo) :
    (getStats userId db).total =
      (db.filter (fun t => t.user_id == userId)).length ∧
    (getStats userId db).completed =
      (db.filter (fun t => t.user_id == userId)).countP
        (fun t => t.completed) ∧
    (getStats userId db).pending =
      (getStats userId db).total - (getStats userId db).completed ∧
    (getStats userId db).completed + (getStats userId db).pending =
      (getStats userId db).total ∧
    (getStats userId db).byPriority.baixa =
      (db.filter (fun t => t.user_id == userId)).countP
        (fun t => t.priority == Priority.baixa) ∧
    (getStats userId db).byPriority.media =
      (db.filter (fun t => t.user_id == userId)).countP
        (fun t => t.priority == Priority.media) ∧
    (getStats userId db).byPriority.alta =
      (db.filter (fun t => t.user_id == userId)).countP
        (fun t => t.priority == Priority.alta) ∧
    (getStats userId db).byPriority.baixa +
      (getStats userId db).byPriority.media +
      (getStats userId db).byPriority.alta = (getStats userId db).total ∧
    (db.filter (fun t => t.user_id == userId) = [] →
      getStats userId db = ⟨0, 0, 0, ⟨0, 0, 0⟩⟩) := by
  have hle : (db.filter (fun t => t.user_id == userId)).countP
      (fun t => t.completed) ≤
      (db.filter (fun t => t.user_id == userId)).length :=
    List.countP_le_length _
  refine ⟨rfl, rfl, rfl, ?_, rfl, rfl, rfl,
    countP_priority_partition _, ?_⟩
  · exact Nat.add_sub_cancel' hle
  · intro he
    simp [getStats, he]

/-- Witness for C9 at an owner with zero rows. -/
theorem C9_stats_shape_witness :
    (([] : List Todo).filter (fun t => t.user_id == 1) = []) ∧
    getStats 1 [] = ⟨0, 0, 0, ⟨0, 0, 0⟩⟩ :=
  ⟨rfl, (C9_stats_shape 1 []).2.2.2.2.2.2.2.2 rfl⟩

/-- C6 as frozen is refuted by the empty-string priority: `?priority=` gives
the empty string, which is not one of the three enumeration values, yet the
truthiness guard `filters.priority && !includes(...)` skips the validation
and the request is served 200 with the filter ignored. -/
theorem C6_clamping_counterexample :
    validPriorities.contains "" = false ∧
    parseListingFilters { priority := some "" } =
      .ok { completed := none, priority := some "", search := none,
            page := some 1, limit := some 10 } ∧
    getAllTodos 1 { priority := some "" } [] =
      .ok (findByUser 1
        { completed := none, priority := some "", search := none,
          page := some 1, limit := some 10 } []) :=
  ⟨rfl, rfl, rfl⟩

/-- C6 amended: an out-of-range `limit` (outside `[1, 100]`) is silently
treated as the default 10 and a `page` below 1 as page 1, the request being
served 200 whenever the priority is absent, empty, or valid; a *non-empty*
priority value outside the three enumeration values is rejected with a 400
validation error, while the empty-string priority is silently treated as an
absent filter. -/
theorem C6_clamping_amended (q : ListingQuery) :
    (∀ n : Int, q.limit = some n → (n < 1 ∨ 100 < n) →
      limitFinal q.limit = 10) ∧
    (∀ n : Int, q.page = some n → n < 1 → pageFinal q.page = 1) ∧
    ((∀ s, q.priority = some s →
        s = "" ∨ validPriorities.contains s = true) →
      ∀ uid db, getAllTodos uid q db =
        .ok (findByUser uid
          { completed := parseCompleted q.completed
            priority := q.priority
            search := q.search
            page := some (pageFinal q.page)
            limit := some (limitFinal q.limit) } db)) ∧
    (∀ s, q.priority = some s → s ≠ "" →
      validPriorities.contains s = false →
      ∀ uid db, getAllTodos uid q db =
        .badRequest "Prioridade deve ser: baixa, media ou alta") := by
  refine ⟨?_, ?_, ?_, ?_⟩
  · intro n hn hout
    rw [hn]
    simp only [limitFinal, limitRaw, zeroTo, clampLimit]
    split_ifs <;> omega
  · intro n hn hlt
    rw [hn]
    simp only [pageFinal, pageRaw, zeroTo, clampPage]
    split_ifs <;> omega
  · intro hp uid db
    have hpb : priorityBad q.priority = false := by
      cases hq : q.priority with
      | none => rfl
      | some s =>
        rcases hp s hq with rfl | hv
        · rfl
        · simp only [priorityBad]
          rw [hv]
          simp
    unfold getAllTodos parseListingFilters
    rw [hpb]
    rfl
  · intro s hsq hne hnc uid db
    have hpb : priorityBad q.priority = true := by
      rw [hsq]
      simp only [priorityBad]
      rw [hnc]
      simp [hne]
    unfold getAllTodos parseListingFilters
    rw [hpb]
    rfl

/-- Witness for the amended C6: `page=0&limit=500` is clamped to page 1 and
limit 10 and served 200. -/
theorem C6_clamping_amended_witness :
    limitFinal (some 500) = 10 ∧ pageFinal (some 0) = 1 ∧
    getAllTodos 1 { page := some 0, limit := some 500 } [] =
      .ok (findByUser 1
        { completed := none, priority := none, search := none,
          page := some 1, limit := some 10 } []) := by
  obtain ⟨h1, h2, h3, -⟩ :=
    C6_clamping_amended { page := some 0, limit := some 500 }
  refine ⟨h1 500 rfl (by omega), h2 0 rfl (by omega), ?_⟩
  exact h3 (by intro s hs; exact absurd hs (by simp)) 1 []

/-- A task whose title and description contain no letter `a`, so it matches
a searchless listing but not the term `"a"`. -/
def plainTask : Todo :=
  { id := 1, title := "Teste", description := none, completed := false,
    priority := .media, due_date := none, user_id := 1, created_at := 0 }

/-- C7: the claim says a search term whose length after trimming is below 2
is treated as "no search" and all otherwise-matching tasks are returned.
The routed `getAll` (`src/backend/src/controllers/TodoController.ts`, lines
146-171, imported by `todoRoutes.ts`) passes the raw term straight to the
model with no trim and no minimum-length check, so `?search=a` (trimmed
length 1) is served 200 with the `LIKE '%a%'` filter applied: a task that
matches the searchless listing is excluded instead of returned. -/
theorem C7_short_search_applied :
    (trimStr "a").length < 2 ∧
    getAllTodos 1 { search := some "a" } [plainTask] =
      .ok (findByUser 1
        { completed := none, priority := none, search := some "a",
          page := some 1, limit := some 10 } [plainTask]) ∧
    (findByUser 1
      { completed := none, priority := none, search := some "a",
        page := some 1, limit := some 10 } [plainTask]).data = [] ∧
    (findByUser 1
      { completed := none, priority := none, search := none,
        page := some 1, limit := some 10 } [plainTask]).data = [plainTask] :=
  ⟨by decide, rfl, rfl, rfl⟩

end TaskFlow
